import Mathlib

/-! # Verification of the open-public-data budget pipeline core

A shallow embedding of the core functions of the Paris open-budget ETL
pipeline (merge engine, geocoding cascade, PDF budget-vote extractor,
amount parser), together with theorems settling the specification claims.

Strings are modelled as `List Char`; machine floats carrying monetary
amounts and scores are modelled as exact rationals `ℚ`; fallible code
returns `Option`; effectful code (HTTP calls) is modelled by explicit
oracle parameters and explicit logs of the calls performed.
-/

namespace OpenData

/-- Strings are modelled as lists of characters. -/
abbrev Str := List Char

/-- The character list of a Lean string literal. -/
def str (s : String) : Str := s.data

/-- Python's `\s` whitespace class (ASCII range). -/
def isPySpace (c : Char) : Bool :=
  c = ' ' || c = '\t' || c = '\n' || c = '\r' || c = '\x0b' || c = '\x0c'

/-- Substring containment: Python's `needle in hay`. -/
def containsSub (hay needle : Str) : Bool := decide (needle <:+: hay)

/-- Python `str.lower` on the alphabet the pipeline manipulates:
ASCII letters plus the accented capitals whose lowercase forms appear in
`normalize_name`'s substitution classes. -/
def pyLower (c : Char) : Char :=
  if 'A' ≤ c ∧ c ≤ 'Z' then Char.ofNat (c.toNat + 32)
  else match c with
    | 'É' => 'é' | 'È' => 'è' | 'Ê' => 'ê' | 'Ë' => 'ë'
    | 'À' => 'à' | 'Â' => 'â' | 'Ä' => 'ä'
    | 'Ù' => 'ù' | 'Û' => 'û' | 'Ü' => 'ü'
    | 'Î' => 'î' | 'Ï' => 'ï'
    | 'Ô' => 'ô' | 'Ö' => 'ö'
    | 'Ç' => 'ç'
    | c => c

/-- Python `str.upper` on the same alphabet (used by `match_lieu_connu`). -/
def pyUpper (c : Char) : Char :=
  if 'a' ≤ c ∧ c ≤ 'z' then Char.ofNat (c.toNat - 32)
  else match c with
    | 'é' => 'É' | 'è' => 'È' | 'ê' => 'Ê' | 'ë' => 'Ë'
    | 'à' => 'À' | 'â' => 'Â' | 'ä' => 'Ä'
    | 'ù' => 'Ù' | 'û' => 'Û' | 'ü' => 'Ü'
    | 'î' => 'Î' | 'ï' => 'Ï'
    | 'ô' => 'Ô' | 'ö' => 'Ö'
    | 'ç' => 'Ç'
    | c => c

/-- The accent-folding substitutions of `normalize_name`
(`[éèêë]→e`, `[àâä]→a`, `[ùûü]→u`, `[îï]→i`, `[ôö]→o`, `[çc]→c`);
each class maps single characters to single characters, so the sequential
`re.sub` passes compose into one character map. -/
def accentSub (c : Char) : Char :=
  match c with
  | 'é' | 'è' | 'ê' | 'ë' => 'e'
  | 'à' | 'â' | 'ä' => 'a'
  | 'ù' | 'û' | 'ü' => 'u'
  | 'î' | 'ï' => 'i'
  | 'ô' | 'ö' => 'o'
  | 'ç' => 'c'
  | c => c

/-- `normalize_name`'s final class substitution `[^a-z0-9\s] → ' '`. -/
def asciiKeep (c : Char) : Char :=
  if ('a' ≤ c ∧ c ≤ 'z') ∨ ('0' ≤ c ∧ c ≤ '9') ∨ isPySpace c then c else ' '

/-- Helper for `wordsOf`: accumulates the current word (reversed). -/
def wordsAux : Str → Str → List Str
  | [], acc => if acc = [] then [] else [acc.reverse]
  | c :: cs, acc =>
    if isPySpace c then
      if acc = [] then wordsAux cs [] else acc.reverse :: wordsAux cs []
    else wordsAux cs (c :: acc)

/-- Python `str.split()` with no argument: the maximal whitespace-free words. -/
def wordsOf (s : Str) : List Str := wordsAux s []

/-- Words joined by single blanks: together with `wordsOf` this models
`re.sub(r'\s+', ' ', name).strip()`. -/
def joinWords (ws : List Str) : Str := List.intercalate [' '] ws

/-- `merge_investments.normalize_name`: lowercase, fold accents, replace
non-alphanumerics by blanks, collapse whitespace runs, strip. -/
def normalize_name (name : Str) : Str :=
  joinWords (wordsOf (name.map (fun c => asciiKeep (accentSub (pyLower c)))))

/-- `merge_investments.is_similar_project`: keyword-containment duplicate
test.  The keywords are the FIRST three words of length > 3 of the
normalized secondary (BigQuery) name, in order of appearance
(`[w for w in bq_normalized.split() if len(w) > 3][:3]`). -/
def is_similar_project (pdf_name bq_name : Str) : Bool :=
  let pdf_normalized := normalize_name pdf_name
  let bq_normalized := normalize_name bq_name
  let bq_keywords := ((wordsOf bq_normalized).filter (fun w => 3 < w.length)).take 3
  if bq_keywords = [] then false
  else bq_keywords.all (fun kw => containsSub pdf_normalized kw)

/-- Insertion step of a sort by decreasing word length. -/
def insertByLen (w : Str) : List Str → List Str
  | [] => [w]
  | x :: xs => if x.length ≤ w.length then w :: x :: xs else x :: insertByLen w xs

/-- Sort a word list by decreasing length. -/
def sortByLenDesc : List Str → List Str
  | [] => []
  | w :: ws => insertByLen w (sortByLenDesc ws)

/-- The duplicate test as the SPEC words it (for comparison with the code's
`is_similar_project`): select the top-3 LONGEST significant words of the
normalized secondary name, and require all of them to appear as substrings
of the normalized primary name. -/
def specTopThreeSimilar (pdf_name bq_name : Str) : Bool :=
  let kws :=
    (sortByLenDesc ((wordsOf (normalize_name bq_name)).filter
      (fun w => 3 < w.length))).take 3
  kws.all (fun kw => containsSub (normalize_name pdf_name) kw)

/-- `merge_year`'s duplicate check for one secondary name against the whole
primary record set (`any(is_similar_project(p['nom_projet'], name) ...)`). -/
def already_in_pdf (pdf_names : List Str) (bq_name : Str) : Bool :=
  pdf_names.any (fun p => is_similar_project p bq_name)

/-- `merge_investments.LIEUX_ICONIQUES`. -/
def LIEUX_ICONIQUES : List Str :=
  [str "philharmonie", str "theatre de la ville", str "opera bastille",
   str "opera garnier", str "tour eiffel", str "notre-dame", str "notre dame",
   str "hotel de ville", str "palais de tokyo", str "petit palais",
   str "grand palais"]

/-- `merge_investments.is_iconic_location`. -/
def is_iconic_location (name : Str) : Bool :=
  let name_lower := name.map pyLower
  LIEUX_ICONIQUES.any (fun lieu => containsSub name_lower lieu)

/-- Tokens of the tiny regex fragment the exclusion patterns use:
literal characters, `.*` and `\s*`. -/
inductive RTok
  | lit (c : Char)
  | anyStar
  | wsStar
deriving DecidableEq

/-- Anchored match of a token list at the head of a string (`.`, per
`re.search` without DOTALL, does not match a newline). -/
def rmatch : List RTok → Str → Bool
  | [], _ => true
  | RTok.lit c :: ps, s =>
    match s with
    | [] => false
    | d :: ds => c = d && rmatch ps ds
  | RTok.anyStar :: ps, s =>
    (List.range (s.length + 1)).any
      (fun k => (s.take k).all (fun c => c ≠ '\n') && rmatch ps (s.drop k))
  | RTok.wsStar :: ps, s =>
    (List.range (s.length + 1)).any
      (fun k => (s.take k).all isPySpace && rmatch ps (s.drop k))

/-- Unanchored match, Python's `re.search`. -/
def rsearch (ps : List RTok) (s : Str) : Bool :=
  (List.range (s.length + 1)).any (fun k => rmatch ps (s.drop k))

/-- Literal characters as regex tokens. -/
def lits (s : String) : List RTok := s.data.map RTok.lit

/-- `merge_investments.EXCLUSION_PATTERNS`:
`sub.*logement\s*soci` and `subvention.*logement`. -/
def EXCLUSION_PATTERNS : List (List RTok) :=
  [lits "sub" ++ [RTok.anyStar] ++ lits "logement" ++ [RTok.wsStar] ++ lits "soci",
   lits "subvention" ++ [RTok.anyStar] ++ lits "logement"]

/-- `merge_investments.is_excluded`: generic-subsidy exclusion; iconic
locations are never excluded. -/
def is_excluded (name : Str) : Bool :=
  let name_lower := name.map pyLower
  if is_iconic_location name then false
  else EXCLUSION_PATTERNS.any (fun pat => rsearch pat name_lower)

/-- Python truthiness of an optional integer (`None` and `0` are falsy). -/
def truthyOptInt : Option Int → Bool
  | none => false
  | some n => n ≠ 0

/-- `merge_investments.MIN_AMOUNT_BQ`. -/
def MIN_AMOUNT_BQ : ℚ := 500000

/-- `merge_investments.should_add_from_bq`: the inclusion policy for a
secondary-source project, returning the decision and the reason tag. -/
def should_add_from_bq (name : Str) (arrondissement : Option Int) (montant : ℚ) :
    Bool × Str :=
  if montant < MIN_AMOUNT_BQ then (false, str "MONTANT_TROP_FAIBLE")
  else if is_excluded name then (false, str "SUBVENTION_GENERIQUE")
  else if is_iconic_location name then (true, str "LIEU_ICONIQUE")
  else if truthyOptInt arrondissement then (true, str "AVEC_ARRONDISSEMENT")
  else (false, str "CITYWIDE_GENERIQUE")

/-- One BigQuery project aggregate (an entry of `merge_year`'s
`bq_aggregated` dict). -/
structure BqInfo where
  montant : ℚ
  arrondissement : Option Int
  missionTexte : Str
  thematique : Str
deriving DecidableEq

/-- One investment record of the merged data set.  `extra` stands for any
remaining JSON fields of a PDF record; the merge never touches them. -/
structure Projet where
  nom_projet : Str
  montant : ℚ
  arrondissement : Option Int
  source : Str
  reason : Str
  thematique : Str
  type_ap : Str
  confidence : ℚ
  extra : List (Str × Str)
deriving DecidableEq

/-- The record `merge_year` constructs for an accepted BigQuery project
(`'arrondissement': bq_info['arrondissement'] or 0`, provenance
`'BigQuery'`, confidence `0.9`). -/
def bqProjet (name : Str) (info : BqInfo) : Projet :=
  { nom_projet := name
    montant := info.montant
    arrondissement := some (match info.arrondissement with
      | some n => if n ≠ 0 then n else 0
      | none => 0)
    source := str "BigQuery"
    reason := (should_add_from_bq name info.arrondissement info.montant).2
    thematique := info.thematique
    type_ap := str "grands_projets"
    confidence := mkRat 9 10
    extra := [] }

/-- The BigQuery-additions loop of `merge_year`: skip projects already
present in the PDF, apply the inclusion policy, build the added records. -/
def added_from_bq (pdf_data : List Projet) (bq_aggregated : List (Str × BqInfo)) :
    List Projet :=
  (bq_aggregated.filter (fun nb =>
      !(pdf_data.any (fun p => is_similar_project p.nom_projet nb.1)) &&
      (should_add_from_bq nb.1 nb.2.arrondissement nb.2.montant).1)).map
    (fun nb => bqProjet nb.1 nb.2)

/-- The merge step of `merge_year`: tag every PDF record with provenance
`'PDF'`, then append the accepted BigQuery additions. -/
def merge_core (pdf_data : List Projet) (bq_aggregated : List (Str × BqInfo)) :
    List Projet :=
  (pdf_data.map (fun p => { p with source := str "PDF" })) ++
    added_from_bq pdf_data bq_aggregated

/-- Total amount of a record list (`sum(p['montant'] for p in ...)`). -/
def montantTotal (l : List Projet) : ℚ := (l.map Projet.montant).sum

/-! ## Amount parser (`extract_pdf_budget_vote.parse_french_amount`) -/

/-- Python `str.strip()` (drop leading and trailing whitespace). -/
def pyStrip (s : Str) : Str :=
  ((s.dropWhile isPySpace).reverse.dropWhile isPySpace).reverse

/-- Value of a decimal digit string, most significant digit first
(`float`'s digit folding). -/
def digitsVal (ds : Str) : Nat := ds.foldl (fun a c => 10 * a + (c.toNat - 48)) 0

/-- Unsigned part of Python `float()` on the decimal fragment the
extractor feeds it: integer digits, optional `.` and fraction digits, at
least one digit somewhere, nothing else. -/
def pyFloatCore (t : Str) : Option ℚ :=
  let ip := t.takeWhile Char.isDigit
  let rest := t.dropWhile Char.isDigit
  if rest = [] then
    if ip = [] then none else some (digitsVal ip)
  else if rest.head? = some '.' then
    let fp := rest.tail.takeWhile Char.isDigit
    let rest2 := rest.tail.dropWhile Char.isDigit
    if rest2 = [] ∧ (ip ≠ [] ∨ fp ≠ []) then
      some ((digitsVal ip : ℚ) + (digitsVal fp : ℚ) / 10 ^ fp.length)
    else none
  else none

/-- Python `float()` on the decimal fragment the extractor feeds it:
optional sign and `pyFloatCore`.  (The exponent/`inf`/`nan`/underscore
forms of the builtin never arise from the amount regex and are not
modelled.) -/
def pyFloat (s : Str) : Option ℚ :=
  if s.head? = some '-' then (pyFloatCore s.tail).map (fun q => -q)
  else if s.head? = some '+' then pyFloatCore s.tail
  else pyFloatCore s

/-- Keeps the characters `parse_french_amount`'s two `replace` calls keep. -/
def notSep (c : Char) : Bool := !(c = ' ' || c = '\xa0')

/-- `extract_pdf_budget_vote.parse_french_amount`:
`"8 898 000,00" → 8898000.0`; `None` (never an exception) on malformed
input. -/
def parse_french_amount (s : Str) : Option ℚ :=
  if s = [] ∨ pyStrip s = [] then none
  else
    let t := ((pyStrip s).filter notSep).map (fun c => if c = ',' then '.' else c)
    (pyFloat t).map (fun q => |q|)

/-- A decimal digit as a character. -/
def digitChar (d : Nat) : Char :=
  match d with
  | 0 => '0' | 1 => '1' | 2 => '2' | 3 => '3' | 4 => '4'
  | 5 => '5' | 6 => '6' | 7 => '7' | 8 => '8' | _ => '9'

/-- The decimal digit characters of `n`, most significant first. -/
def natRepr (n : Nat) : Str :=
  if n = 0 then ['0'] else ((Nat.digits 10 n).map digitChar).reverse

/-- Two-digit cents, e.g. `89 ↦ "89"`. -/
def cents2 (c : Nat) : Str := [digitChar (c / 10), digitChar (c % 10)]

/-- A French-formatted amount as the spec describes one: digit groups with
blank thousands separators and a comma before two decimal digits, e.g.
`frenchSpaced ["1","234","567"] 89 = "1 234 567,89"`. -/
def frenchSpaced (parts : List Str) (c : Nat) : Str :=
  List.intercalate [' '] parts ++ ',' :: cents2 c

/-! ## Function-code leaf filter
(`extract_pdf_budget_vote.extract_func_codes_from_text`) -/

/-- The leaf filter of `extract_func_codes_from_text`: drop every code
that is a (strict) prefix of another code of the set
(`not any(other.startswith(code) and other != code for other in seen)`),
keeping first-appearance order. -/
def leaf_codes (seen : List Str) : List Str :=
  seen.filter (fun code =>
    !(seen.any (fun other => decide (code <+: other) && other ≠ code)))

/-! ## PDF budget-vote extractor
(`extract_pdf_budget_vote.find_all_croisee_pages`, `parse_page_data`,
`parse_non_ventilated_page`, `extract_year`) -/

/-- `PageInfo` of the extractor (the Python field `section` is a Lean
keyword and is embedded as `sectionLabel`). -/
structure PageInfo where
  page_idx : Nat
  is_continuation : Bool
  sectionLabel : Str
  chapitre_ref : Str
  chapitre_code : Str
  chapitre_libelle : Str
deriving DecidableEq

/-- `NonVentPageInfo` of the extractor. -/
structure NonVentPageInfo where
  page_idx : Nat
  sectionLabel : Str
  chapitre_code : Str
  chapitre_libelle : Str
deriving DecidableEq

/-- `BudgetVoteLine` of the extractor (`sens_flux` holds `"Dépense"` or
`"Recette"`, amounts are exact rationals). -/
structure BudgetVoteLine where
  annee : Nat
  sectionLabel : Str
  sens_flux : Str
  chapitre_code : Str
  chapitre_libelle : Str
  nature_code : Str
  nature_libelle : Str
  fonction_code : Str
  montant : ℚ
  source_page : Nat
  source_pdf : Str
deriving DecidableEq

/-- Python `stripped.startswith(lit)`. -/
def startsWithLit (s : Str) (lit : String) : Bool := decide (lit.data <+: s)

/-- `re.match(r'^(\d{3})\s', stripped)`: exactly three digits followed by
whitespace. -/
def natMatch3 (s : Str) : Option Str :=
  match s with
  | a :: b :: c :: d :: _ =>
    if a.isDigit && b.isDigit && c.isDigit && isPySpace d then some [a, b, c]
    else none
  | _ => none

/-- `re.match(r'^(\d{3,7})\s', stripped)`: the leading digit run must have
length 3–7 and be followed by whitespace (a shorter greedy backtrack is
always followed by another digit, so this is the regex's semantics). -/
def natMatch37 (s : Str) : Option Str :=
  let run := s.takeWhile Char.isDigit
  let nextWs : Bool :=
    match s.drop run.length with
    | c :: _ => isPySpace c
    | [] => false
  if 3 ≤ run.length ∧ run.length ≤ 7 ∧ nextWs = true then some run else none

/-- Python `page_text.split("\n")` (keeps empty pieces). -/
def splitNl : Str → List Str
  | [] => [[]]
  | c :: cs =>
    if c = '\n' then [] :: splitNl cs
    else
      match splitNl cs with
      | [] => [[c]]
      | l :: ls => (c :: l) :: ls

/-- The regex primitives of the extractor that are not embedded
symbolically: `findAmounts` models `AMOUNT_RE.findall` on one line,
`natureLibelle` models `extract_nature_libelle` (the label text of a line,
between the nature code and the first amount). -/
structure RegexOracle where
  findAmounts : Str → List Str
  natureLibelle : Str → Str → Str

/-- `extract_func_codes_from_text`, with the `FUNC_CODE_RE` header scan and
the fragmented `TOTAL DU CHAPITRE` text detection abstracted as oracles
(`seenCodes`, `hasTotalText`); the leaf filtering is `leaf_codes`. -/
def extract_func_codes_from_text (seenCodes : Str → List Str)
    (hasTotalText : Str → Bool) (text : Str) : List Str × Bool :=
  (leaf_codes (seenCodes text), hasTotalText text)

/-- One emitted ventilated line of `parse_page_data`. -/
def mkVoteLine (annee : Nat) (page_info : PageInfo) (pdf_name : Str)
    (sens nature_code nature_libelle fonction_code : Str) (val : ℚ) :
    BudgetVoteLine :=
  { annee := annee
    sectionLabel := page_info.sectionLabel
    sens_flux := sens
    chapitre_code := page_info.chapitre_code
    chapitre_libelle := page_info.chapitre_libelle
    nature_code := nature_code
    nature_libelle := nature_libelle
    fonction_code := fonction_code
    montant := val
    source_page := page_info.page_idx + 1
    source_pdf := pdf_name }

/-- The column-alignment branch chain of `parse_page_data`, returning the
(function code, amount token) pairs a data line yields.  The final
best-effort branch (`offset = n_funcs - len(col_amounts)` with the
`func_idx < len(func_codes)` guard) is the zip against
`func_codes.drop offset`. -/
def colPairs (has_total_col : Bool) (n_expected : Nat) (func_codes amounts : List Str) :
    List (Str × Str) :=
  let n_funcs := func_codes.length
  if has_total_col ∧ n_expected ≤ amounts.length then
    func_codes.zip (amounts.take n_funcs)
  else if has_total_col ∧ amounts.length = n_funcs then
    func_codes.zip (amounts.take n_funcs)
  else if n_funcs < amounts.length then
    func_codes.zip (amounts.drop (amounts.length - n_funcs))
  else if amounts.length = n_funcs then
    func_codes.zip amounts
  else
    (func_codes.drop (n_funcs - amounts.length)).zip amounts

/-- The per-line emission of `parse_page_data`: parse each paired amount
token and keep only strictly positive values. -/
def emitPairs (annee : Nat) (page_info : PageInfo) (pdf_name : Str)
    (sens nature_code nature_libelle : Str) (pairs : List (Str × Str)) :
    List BudgetVoteLine :=
  pairs.filterMap (fun fa =>
    match parse_french_amount fa.2 with
    | some val =>
      if 0 < val then
        some (mkVoteLine annee page_info pdf_name sens nature_code nature_libelle
          fa.1 val)
      else none
    | none => none)

/-- One line step of `parse_page_data`'s main loop: direction markers
update the running sens; nature lines emit data when a sens is active. -/
def pageStep (ro : RegexOracle) (has_total_col : Bool) (n_expected : Nat)
    (func_codes : List Str) (annee : Nat) (page_info : PageInfo) (pdf_name : Str)
    (st : Option Str × List BudgetVoteLine) (line : Str) :
    Option Str × List BudgetVoteLine :=
  let stripped := pyStrip line
  if startsWithLit stripped "DEPENSES" || startsWithLit stripped "DÉPENSES" then
    (some (str "Dépense"), st.2)
  else if startsWithLit stripped "RECETTES" then
    (some (str "Recette"), st.2)
  else
    match natMatch3 stripped, st.1 with
    | some nature_code, some sens =>
      let nature_libelle := ro.natureLibelle stripped nature_code
      let amounts := ro.findAmounts stripped
      (st.1, st.2 ++ emitPairs annee page_info pdf_name sens nature_code
        nature_libelle (colPairs has_total_col n_expected func_codes amounts))
    | _, _ => st

/-- The data-driven `TOTAL` column probe of `parse_page_data`: the first
`DEPENSES`/`RECETTES`/nature line confirms a total column when it carries
exactly `n_funcs + 1` amounts. -/
def probeTotal (ro : RegexOracle) (n_funcs : Nat) (page_text : Str) : Bool :=
  match (splitNl page_text).find? (fun line =>
      let st := pyStrip line
      startsWithLit st "DEPENSES" || startsWithLit st "DÉPENSES" ||
        startsWithLit st "RECETTES" || (natMatch3 st).isSome) with
  | some line => (ro.findAmounts (pyStrip line)).length = n_funcs + 1
  | none => false

/-- `extract_pdf_budget_vote.parse_page_data`: extract the budget lines of
one ventilated page, threading the running `sens_flux` (reset on a
non-continuation page, carried in on a continuation page). -/
def parse_page_data (ro : RegexOracle) (seenCodes : Str → List Str)
    (hasTotalText : Str → Bool) (page_text : Str) (page_info : PageInfo)
    (annee : Nat) (pdf_name : Str) (prev_sens : Option Str) :
    List BudgetVoteLine × Option Str :=
  if page_text = [] then ([], prev_sens)
  else
    let fc := extract_func_codes_from_text seenCodes hasTotalText page_text
    let func_codes := fc.1
    let n_funcs := func_codes.length
    if n_funcs = 0 then ([], prev_sens)
    else
      let has_total_col := if fc.2 then true else probeTotal ro n_funcs page_text
      let n_expected := if has_total_col then n_funcs + 1 else n_funcs
      let init_sens : Option Str := if page_info.is_continuation then prev_sens else none
      let out := (splitNl page_text).foldl
        (pageStep ro has_total_col n_expected func_codes annee page_info pdf_name)
        (init_sens, [])
      (out.2, out.1)

/-- One line step of `parse_non_ventilated_page`: take the LAST amount of a
nature line (the cumulative `TOTAL` column) and keep it when positive. -/
def nonVentStep (ro : RegexOracle) (page_info : NonVentPageInfo) (annee : Nat)
    (pdf_name : Str) (st : Option Str × List BudgetVoteLine) (line : Str) :
    Option Str × List BudgetVoteLine :=
  let stripped := pyStrip line
  if startsWithLit stripped "DEPENSES" || startsWithLit stripped "DÉPENSES" then
    (some (str "Dépense"), st.2)
  else if startsWithLit stripped "RECETTES" then
    (some (str "Recette"), st.2)
  else
    match st.1 with
    | none => st
    | some sens =>
      match natMatch37 stripped with
      | none => st
      | some nature_code =>
        match (ro.findAmounts stripped).getLast? with
        | none => st
        | some lastAmt =>
          match parse_french_amount lastAmt with
          | none => st
          | some val =>
            if val ≤ 0 then st
            else
              let nature_libelle := ro.natureLibelle stripped nature_code
              (st.1, st.2 ++
                [{ annee := annee
                   sectionLabel := page_info.sectionLabel
                   sens_flux := sens
                   chapitre_code := page_info.chapitre_code
                   chapitre_libelle := page_info.chapitre_libelle
                   nature_code := nature_code
                   nature_libelle := nature_libelle
                   fonction_code := []
                   montant := val
                   source_page := page_info.page_idx + 1
                   source_pdf := pdf_name }])

/-- `extract_pdf_budget_vote.parse_non_ventilated_page`. -/
def parse_non_ventilated_page (ro : RegexOracle) (page_text : Str)
    (page_info : NonVentPageInfo) (annee : Nat) (pdf_name : Str) :
    List BudgetVoteLine :=
  if page_text = [] then []
  else ((splitNl page_text).foldl (nonVentStep ro page_info annee pdf_name)
    (none, [])).2

/-- The context a labeled header page carries (phase 1 of
`find_all_croisee_pages`). -/
structure LabelCtx where
  sectionLabel : Str
  chapitre_ref : Str
  chapitre_code : Str
  chapitre_libelle : Str
deriving DecidableEq

/-- A labeled page's `PageInfo`. -/
def labeledPage (i : Nat) (ctx : LabelCtx) : PageInfo :=
  ⟨i, false, ctx.sectionLabel, ctx.chapitre_ref, ctx.chapitre_code,
    ctx.chapitre_libelle⟩

/-- A continuation page's `PageInfo` (inherits the context). -/
def contPage (i : Nat) (ctx : LabelCtx) : PageInfo :=
  ⟨i, true, ctx.sectionLabel, ctx.chapitre_ref, ctx.chapitre_code,
    ctx.chapitre_libelle⟩

/-- The nearest preceding labeled page's context: scan `j = i-1, i-2, ...,
first` (the Python `for j in range(i - 1, first_page - 1, -1)`). -/
def nearestLabeled (labeled : List (Nat × LabelCtx)) (first i : Nat) :
    Option LabelCtx :=
  (List.range (i - first)).findSome? (fun d =>
    (labeled.find? (fun kc => kc.1 = i - 1 - d)).map (fun kc => kc.2))

/-- `extract_pdf_budget_vote.find_all_croisee_pages`, with the phase-1
marker/regex analysis of one page abstracted as `classify` (`some ctx` for
a labeled header page) and the continuation test (`FUNC_CODE_RE` in the
header plus a nature line) abstracted as `contTest`.  Phase 2 only scans
the index range between the first and last labeled page, and a
continuation inherits the nearest preceding labeled context; the result
is sorted by page index, which the increasing range scan yields
directly. -/
def find_all_croisee_pages (classify : Str → Option LabelCtx)
    (contTest : Str → Bool) (texts : List Str) : List PageInfo :=
  let labeled : List (Nat × LabelCtx) :=
    (List.range texts.length).filterMap (fun i =>
      (classify (texts.getD i [])).map (fun ctx => (i, ctx)))
  match labeled with
  | [] => []
  | (k0, _) :: rest =>
    let first_page := rest.foldl (fun a kc => Nat.min a kc.1) k0
    let last_page := rest.foldl (fun a kc => Nat.max a kc.1) k0
    (List.range texts.length).filterMap (fun i =>
      match labeled.find? (fun kc => kc.1 = i) with
      | some kc => some (labeledPage i kc.2)
      | none =>
        if first_page ≤ i ∧ i ≤ last_page ∧ contTest (texts.getD i []) then
          match nearestLabeled labeled first_page i with
          | some ctx => some (contPage i ctx)
          | none => none
        else none)

/-- The ventilated loop of `extract_year` (step 3a) as a trace: each entry
is `(page, sens fed in, lines extracted, sens coming out)`.  After a page,
the running sens is reset to `none` when the NEXT page is a labeled
(non-continuation) page, and carried otherwise. -/
def croiseeTrace (parse : PageInfo → Option Str → List BudgetVoteLine × Option Str) :
    List PageInfo → Option Str →
    List (PageInfo × Option Str × List BudgetVoteLine × Option Str)
  | [], _ => []
  | p :: rest, prev =>
    let r := parse p prev
    let next_prev : Option Str :=
      match rest with
      | [] => r.2
      | q :: _ => if q.is_continuation then r.2 else none
    (p, prev, r.1, r.2) :: croiseeTrace parse rest next_prev

/-! ## Geocoding cascade (`geocode_investments.geocode_project`) -/

/-- One known-place registry entry (`seed_lieux_connus.csv` row). -/
structure LieuData where
  lat : Option ℚ
  lon : Option ℚ
  adresse : Str
  arrondissement : Option Int
deriving DecidableEq

/-- A successful BAN geocoder result (`lat`, `lon`, `score`, `label`). -/
structure ApiResult where
  lat : ℚ
  lon : ℚ
  score : ℚ
  label : Str
deriving DecidableEq

/-- One investment project as the cascade sees it. -/
structure GeoProjet where
  nom_projet : Str
  arrondissement : Option Int
  lat : Option ℚ
  lon : Option ℚ
  geo_source : Option Str
  geo_score : Option ℚ
  geo_label : Option Str
deriving DecidableEq

/-- Python truthiness of an optional rational (`None` and `0.0` falsy). -/
def truthyOptQ : Option ℚ → Bool
  | none => false
  | some q => q ≠ 0

/-- `geocode_investments.CENTROIDS` (arrondissement centroid fallback). -/
def CENTROIDS : List (Int × ℚ × ℚ) :=
  [(1, mkRat 488605 10000, mkRat 23478 10000), (2, mkRat 488673 10000, mkRat 23414 10000),
   (3, mkRat 488631 10000, mkRat 23606 10000), (4, mkRat 488536 10000, mkRat 23578 10000),
   (5, mkRat 488450 10000, mkRat 23497 10000), (6, mkRat 488492 10000, mkRat 23337 10000),
   (7, mkRat 488583 10000, mkRat 23121 10000), (8, mkRat 488744 10000, mkRat 23117 10000),
   (9, mkRat 488763 10000, mkRat 23380 10000), (10, mkRat 488760 10000, mkRat 23616 10000),
   (11, mkRat 488596 10000, mkRat 23794 10000), (12, mkRat 488391 10000, mkRat 23896 10000),
   (13, mkRat 488311 10000, mkRat 23592 10000), (14, mkRat 488339 10000, mkRat 23265 10000),
   (15, mkRat 488418 10000, mkRat 22988 10000), (16, mkRat 488600 10000, mkRat 22690 10000),
   (17, mkRat 488867 10000, mkRat 23102 10000), (18, mkRat 488922 10000, mkRat 23447 10000),
   (19, mkRat 488840 10000, mkRat 23820 10000), (20, mkRat 488639 10000, mkRat 23985 10000)]

/-- `geocode_investments.match_lieu_connu`: first registry pattern that is
a substring of the uppercased project name and has a truthy latitude. -/
def match_lieu_connu (text : Str) (lieux : List (Str × LieuData)) :
    Option (Str × LieuData) :=
  let text_upper := text.map pyUpper
  lieux.find? (fun pl => containsSub text_upper pl.1 && truthyOptQ pl.2.lat)

/-- Outcome of `geocode_project`: the updated project, the returned tag,
and the list of BAN API queries performed (query text, arrondissement). -/
structure GeoOutcome where
  proj : GeoProjet
  tag : Str
  apiCalls : List (Str × Option Int)
deriving DecidableEq

/-- Tier 4/5 of `geocode_project`: arrondissement centroid fallback, else
`geo_source = 'none'`, `geo_score = 0` (coordinates left untouched). -/
def geocode_fallback (p : GeoProjet) (arr : Option Int)
    (calls : List (Str × Option Int)) : GeoOutcome :=
  match arr with
  | some a =>
    match CENTROIDS.find? (fun c => c.1 = a) with
    | some c =>
      ⟨{ p with
          lat := some c.2.1
          lon := some c.2.2
          geo_source := some (str "centroid")
          geo_score := some (mkRat 1 10)
          geo_label := some (str "Arrondissement " ++ (toString a).data) },
        str "centroid", calls⟩
    | none => ⟨{ p with geo_source := some (str "none"), geo_score := some 0 },
        str "none", calls⟩
  | none => ⟨{ p with geo_source := some (str "none"), geo_score := some 0 },
      str "none", calls⟩

/-- Tier 3 of `geocode_project`: facility-name geocoding, acceptance floor
`score > 0.3`. -/
def geocode_tier3 (api : Str → Option Int → Option ApiResult)
    (extractPlace : Str → Option Str) (p : GeoProjet) (nom : Str)
    (arr : Option Int) (calls : List (Str × Option Int)) : GeoOutcome :=
  match extractPlace nom with
  | some place =>
    let result := api place arr
    let calls := calls ++ [(place, arr)]
    match result with
    | some r =>
      if r.score > mkRat 3 10 then
        ⟨{ p with
            lat := some r.lat
            lon := some r.lon
            geo_source := some (str "api_lieu")
            geo_score := some r.score
            geo_label := some r.label }, str "api_lieu", calls⟩
      else geocode_fallback p arr calls
    | none => geocode_fallback p arr calls
  | none => geocode_fallback p arr calls

/-- Tier 2 of `geocode_project`: extracted street address, acceptance
floor `score > 0.4`; the source tag is `api_numero` or `api_rue` depending
on the address shape. -/
def geocode_tier2 (api : Str → Option Int → Option ApiResult)
    (extractAddr : Str → Option (Str × Str)) (extractPlace : Str → Option Str)
    (p : GeoProjet) (nom : Str) (arr : Option Int) : GeoOutcome :=
  match extractAddr nom with
  | some at_ =>
    let result := api at_.1 arr
    let calls := [(at_.1, arr)]
    match result with
    | some r =>
      if r.score > mkRat 4 10 then
        ⟨{ p with
            lat := some r.lat
            lon := some r.lon
            geo_source := some (str "api_" ++ at_.2)
            geo_score := some r.score
            geo_label := some r.label }, str "api_" ++ at_.2, calls⟩
      else geocode_tier3 api extractPlace p nom arr calls
    | none => geocode_tier3 api extractPlace p nom arr calls
  | none => geocode_tier3 api extractPlace p nom arr []

/-- `geocode_investments.geocode_project`: the tiered cascade.  The
address/place/arrondissement regex extractions are abstracted as
`extractArr`, `extractAddr`, `extractPlace`; the (cached, deterministic
within one run) BAN call `geocode_api` is abstracted as `api`. -/
def geocode_project (extractArr : Str → Option Int)
    (extractAddr : Str → Option (Str × Str)) (extractPlace : Str → Option Str)
    (api : Str → Option Int → Option ApiResult) (lieux : List (Str × LieuData))
    (p : GeoProjet) : GeoOutcome :=
  let nom := p.nom_projet
  let arr_existant := p.arrondissement.getD 0
  let arr : Option Int :=
    if arr_existant ≠ 0 ∧ 0 < arr_existant then some arr_existant
    else extractArr nom
  let p0 := if truthyOptInt arr then { p with arrondissement := arr } else p
  match match_lieu_connu nom lieux with
  | some pl =>
    if truthyOptQ pl.2.lat then
      let p1 := { p0 with
        lat := pl.2.lat
        lon := pl.2.lon
        geo_source := some (str "lieu_connu")
        geo_score := some 1
        geo_label := some pl.2.adresse }
      let p2 :=
        if !truthyOptInt p1.arrondissement && truthyOptInt pl.2.arrondissement
        then { p1 with arrondissement := pl.2.arrondissement } else p1
      ⟨p2, str "lieu_connu", []⟩
    else geocode_tier2 api extractAddr extractPlace p0 nom arr
  | none => geocode_tier2 api extractAddr extractPlace p0 nom arr

/-- The candidate filter of the LLM pass (`llm_extract_addresses.
process_year`): only projects whose `geo_source` is `centroid` or `none`
are processed. -/
def llmCandidates (projects : List GeoProjet) : List GeoProjet :=
  projects.filter (fun p =>
    p.geo_source = some (str "centroid") || p.geo_source = some (str "none"))

/-! ## HTTP retry behaviour (`enrich_geo_ap_llm.call_gemini_batch`,
`geocode_investments.geocode_api`) -/

/-- The 429-retry skeleton of `call_gemini_batch`: returns (number of
requests sent, sleep delays performed in seconds, final status).  One
request; on 429 sleep 30s and retry; on a second 429 sleep 60s and retry
once more; whatever status the last response has is final. -/
def call_gemini_attempts (oracle : Nat → Nat) : Nat × List Nat × Nat :=
  let s0 := oracle 0
  if s0 = 429 then
    let s1 := oracle 1
    if s1 = 429 then
      let s2 := oracle 2
      (3, [30, 60], s2)
    else (2, [30], s1)
  else (1, [], s0)

/-- `call_gemini_batch`'s result: the parsed items on a final 200, and the
empty list (recorded failure, no exception) otherwise. -/
def call_gemini_batch (oracle : Nat → Nat) (parsed : List (Str × Option Int)) :
    List (Str × Option Int) × Nat :=
  let a := call_gemini_attempts oracle
  (if a.2.2 = 200 then parsed else [], a.1)

/-- The top feature of a BAN response body: coordinates, relevance score,
label and postal code.  (The 6-decimal display rounding of coordinates is
not modelled; they pass through exactly.) -/
structure BanFeature where
  lat : ℚ
  lon : ℚ
  score : ℚ
  label : Str
  postcode : Str
deriving DecidableEq

/-- A BAN HTTP response: status code and top feature (when the body has
one). -/
structure BanResp where
  status : Nat
  feature : Option BanFeature
deriving DecidableEq

/-- The result dict `geocode_api` builds from an accepted feature. -/
def banResult (f : BanFeature) : ApiResult := ⟨f.lat, f.lon, f.score, f.label⟩

/-- The BAN cache key of `geocode_api`: `f"{query}|{arrondissement or 0}"`. -/
def banCacheKey (query : Str) (arr : Option Int) : Str × Int :=
  (query, match arr with
    | some n => if n ≠ 0 then n else 0
    | none => 0)

/-- `geocode_investments.geocode_api`, with the HTTP transport as an
oracle (`oracle k` = response to the `k`-th request of this call).
Returns the result, the updated cache, and the number of HTTP requests
performed.  `raise_for_status` (any status ≥ 400, in particular 429) lands
in the `except` handler, which returns `None` immediately — no retry, no
cache write. -/
def geocode_api (oracle : Nat → BanResp)
    (cache : List ((Str × Int) × Option ApiResult)) (query : Str)
    (arr : Option Int) :
    Option ApiResult × List ((Str × Int) × Option ApiResult) × Nat :=
  let key := banCacheKey query arr
  match (cache.find? (fun e => e.1 = key)).map (fun e => e.2) with
  | some cached => (cached, cache, 0)
  | none =>
    let r0 := oracle 0
    if 400 ≤ r0.status then (none, cache, 1)
    else
      match r0.feature with
      | some f =>
        if startsWithLit f.postcode "75" then
          (some (banResult f), (key, some (banResult f)) :: cache, 1)
        else geocode_api_second oracle cache key
      | none => geocode_api_second oracle cache key
where
  /-- The second request (`type` filter dropped) of `geocode_api`. -/
  geocode_api_second (oracle : Nat → BanResp)
      (cache : List ((Str × Int) × Option ApiResult)) (key : Str × Int) :
      Option ApiResult × List ((Str × Int) × Option ApiResult) × Nat :=
    let r1 := oracle 1
    if 400 ≤ r1.status then (none, cache, 2)
    else
      match r1.feature with
      | some f =>
        if startsWithLit f.postcode "75" then
          (some (banResult f), (key, some (banResult f)) :: cache, 2)
        else (none, (key, none) :: cache, 2)
      | none => (none, (key, none) :: cache, 2)

/-! ## LLM address extraction with BAN double validation
(`llm_extract_addresses.extract_address_llm`, `validate_address_ban`,
`process_year`) -/

/-- The parsed JSON of one LLM answer (`None` models an API error or
unparseable JSON). -/
structure LlmJson where
  adresse : Option Str
  confidence : ℚ
deriving DecidableEq

/-- `llm_extract_addresses.MIN_CONFIDENCE` (0.85). -/
def MIN_CONFIDENCE : ℚ := mkRat 85 100

/-- `llm_extract_addresses.extract_address_llm`: keep the candidate only
when the answer has a truthy address and `confidence >= MIN_CONFIDENCE`. -/
def extract_address_llm (resp : Option LlmJson) : Option (Str × ℚ) :=
  match resp with
  | none => none
  | some r =>
    match r.adresse with
    | none => none
    | some a =>
      if a ≠ [] ∧ MIN_CONFIDENCE ≤ r.confidence then some (a, r.confidence)
      else none

/-- `llm_extract_addresses.validate_address_ban`: accept the BAN feature
only when it exists, its postcode starts with `75` and its
`score > 0.4`. -/
def validate_address_ban (resp : Option BanResp) : Option ApiResult :=
  match resp with
  | none => none
  | some r =>
    if 400 ≤ r.status then none
    else
      match r.feature with
      | some f =>
        if startsWithLit f.postcode "75" ∧ f.score > mkRat 4 10 then
          some (banResult f)
        else none
      | none => none

/-- One candidate step of `process_year` (non-dry-run): the project is
rewritten only when both the LLM extraction and the BAN validation
succeed; otherwise it is returned unchanged. -/
def llmProcessCandidate (p : GeoProjet) (llmResp : Option LlmJson)
    (banResp : Option BanResp) : GeoProjet :=
  match extract_address_llm llmResp with
  | none => p
  | some ext =>
    match validate_address_ban banResp with
    | none => p
    | some v =>
      { p with
        lat := some v.lat
        lon := some v.lon
        geo_source := some (str "llm_ban")
        geo_score := some (min ext.2 v.score)
        geo_label := some v.label }

/-! ## Concrete fixtures used by the witness instantiations -/

/-- A concrete `Investissement` chapter context. -/
def ctxA : LabelCtx :=
  ⟨str "Investissement", str "A1.900", str "900", str "Services generaux"⟩

/-- A concrete `Fonctionnement` chapter context. -/
def ctxB : LabelCtx :=
  ⟨str "Fonctionnement", str "A2.930", str "930", str "Services"⟩

/-- A concrete page classifier: page text `PA` is labeled with `ctxA`,
page text `PB` with `ctxB`, everything else is unlabeled. -/
def classifyW : Str → Option LabelCtx := fun t =>
  if t = str "PA" then some ctxA else if t = str "PB" then some ctxB else none

/-- A concrete continuation test accepting every page. -/
def contTestW : Str → Bool := fun _ => true


/-! ## Helper lemmas -/

theorem digitChar_facts {d : Nat} (h : d < 10) :
    (digitChar d).isDigit = true ∧ notSep (digitChar d) = true ∧
    digitChar d ≠ ',' ∧ digitChar d ≠ '.' ∧ isPySpace (digitChar d) = false ∧
    digitChar d ≠ '-' ∧ digitChar d ≠ '+' ∧ (digitChar d).toNat - 48 = d := by
  interval_cases d <;>
    exact ⟨rfl, rfl, by decide, by decide, rfl, by decide, by decide, rfl⟩

theorem natRepr_mem_digit {n : Nat} {c : Char} (hc : c ∈ natRepr n) :
    ∃ d < 10, c = digitChar d := by
  unfold natRepr at hc
  split at hc
  · simp at hc; exact ⟨0, by omega, by simp [hc]; rfl⟩
  · simp [List.mem_reverse, List.mem_map] at hc
    obtain ⟨d, hd, rfl⟩ := hc
    exact ⟨d, Nat.digits_lt_base (by norm_num) hd, rfl⟩

theorem natRepr_ne_nil (n : Nat) : natRepr n ≠ [] := by
  unfold natRepr
  split
  · simp
  · simp [Nat.digits_ne_nil_iff_ne_zero, *]

theorem digitsValAux (a : Nat) (ys : Str) :
    ys.foldl (fun a c => 10 * a + (c.toNat - 48)) a =
      a * 10 ^ ys.length + digitsVal ys := by
  induction ys generalizing a with
  | nil => simp [digitsVal]
  | cons c cs ih =>
    show cs.foldl _ (10 * a + (c.toNat - 48)) = _
    rw [ih]
    have : digitsVal (c :: cs) = (c.toNat - 48) * 10 ^ cs.length + digitsVal cs := by
      show cs.foldl _ (10 * 0 + (c.toNat - 48)) = _
      rw [ih]; ring_nf
    rw [this]; simp [List.length_cons]; ring

theorem digitsVal_append (xs ys : Str) :
    digitsVal (xs ++ ys) = digitsVal xs * 10 ^ ys.length + digitsVal ys := by
  unfold digitsVal
  rw [List.foldl_append]
  exact digitsValAux _ ys

theorem digitsVal_rev_map (ds : List ℕ) (h : ∀ d ∈ ds, d < 10) :
    digitsVal ((ds.map digitChar).reverse) = Nat.ofDigits 10 ds := by
  induction ds with
  | nil => simp [digitsVal, Nat.ofDigits]
  | cons d t ih =>
    have hd : d < 10 := h d (List.mem_cons_self d t)
    have ht : ∀ x ∈ t, x < 10 := fun x hx => h x (List.mem_cons_of_mem d hx)
    rw [List.map_cons, List.reverse_cons, digitsVal_append, ih ht, Nat.ofDigits_cons]
    have h1 : digitsVal [digitChar d] = d := by
      show 10 * 0 + ((digitChar d).toNat - 48) = d
      have := (digitChar_facts hd).2.2.2.2.2.2.2
      omega
    simp [h1]
    ring

theorem digitsVal_natRepr (n : Nat) : digitsVal (natRepr n) = n := by
  unfold natRepr
  split
  · simp [digitsVal, *]
  · rw [digitsVal_rev_map _ (fun d hd => Nat.digits_lt_base (by norm_num) hd),
      Nat.ofDigits_digits]

theorem cents2_val {c : Nat} (h : c < 100) : digitsVal (cents2 c) = c := by
  unfold cents2
  have h1 := (digitChar_facts (show c / 10 < 10 by omega)).2.2.2.2.2.2.2
  have h2 := (digitChar_facts (show c % 10 < 10 by omega)).2.2.2.2.2.2.2
  show 10 * (10 * 0 + ((digitChar (c / 10)).toNat - 48)) +
    ((digitChar (c % 10)).toNat - 48) = c
  omega

theorem filter_reverse_ (p : Char → Bool) (s : Str) :
    s.reverse.filter p = (s.filter p).reverse := by
  induction s with
  | nil => rfl
  | cons c cs ih =>
    by_cases h : p c <;>
      simp [List.reverse_cons, List.filter_append, List.filter_cons, h, ih]

theorem mem_dropWhile_sub {c : Char} {p : Char → Bool} {s : Str}
    (h : c ∈ s.dropWhile p) : c ∈ s := by
  induction s with
  | nil => simp at h
  | cons a t ih =>
    by_cases ha : p a
    · rw [List.dropWhile_cons_of_pos ha] at h
      exact List.mem_cons_of_mem a (ih h)
    · rwa [List.dropWhile_cons_of_neg ha] at h

theorem filter_dropWhile_sp (s : Str)
    (hs : ∀ c ∈ s, isPySpace c = true → notSep c = false) :
    (s.dropWhile isPySpace).filter notSep = s.filter notSep := by
  induction s with
  | nil => rfl
  | cons c cs ih =>
    by_cases h : isPySpace c
    · rw [List.dropWhile_cons_of_pos h, List.filter_cons_of_neg
        (by simp [hs c (List.mem_cons_self c cs) h])]
      exact ih (fun x hx => hs x (List.mem_cons_of_mem c hx))
    · rw [List.dropWhile_cons_of_neg h]

theorem filter_pyStrip (s : Str)
    (hs : ∀ c ∈ s, isPySpace c = true → notSep c = false) :
    (pyStrip s).filter notSep = s.filter notSep := by
  unfold pyStrip
  rw [filter_reverse_, filter_dropWhile_sp, filter_reverse_, List.reverse_reverse,
    filter_dropWhile_sp _ hs]
  intro c hc
  rw [List.mem_reverse] at hc
  exact hs c (mem_dropWhile_sub hc)

theorem takeWhile_append_stop (p : Char → Bool) (xs : Str) (y : Char) (ys : Str)
    (hx : ∀ c ∈ xs, p c = true) (hy : p y = false) :
    (xs ++ y :: ys).takeWhile p = xs ∧ (xs ++ y :: ys).dropWhile p = y :: ys := by
  induction xs with
  | nil => simp [List.takeWhile_cons, List.dropWhile_cons, hy]
  | cons a t ih =>
    have ha : p a = true := hx a (List.mem_cons_self a t)
    have ht := ih (fun c hc => hx c (List.mem_cons_of_mem a hc))
    simp [List.takeWhile_cons, List.dropWhile_cons, ha, ht.1, ht.2]

theorem isDigit_facts {c : Char} (h : c.isDigit = true) :
    c ≠ '-' ∧ c ≠ '+' ∧ c ≠ '.' ∧ c ≠ ',' ∧ isPySpace c = false ∧
    notSep c = true := by
  refine ⟨?_, ?_, ?_, ?_, ?_, ?_⟩
  · rintro rfl; exact absurd h (by decide)
  · rintro rfl; exact absurd h (by decide)
  · rintro rfl; exact absurd h (by decide)
  · rintro rfl; exact absurd h (by decide)
  · by_contra hsp
    rw [Bool.not_eq_false] at hsp
    simp only [isPySpace, Bool.or_eq_true, decide_eq_true_eq] at hsp
    rcases hsp with ((((rfl | rfl) | rfl) | rfl) | rfl) | rfl <;>
      exact absurd h (by decide)
  · simp only [notSep, Bool.not_eq_true', Bool.or_eq_false_iff,
      decide_eq_false_iff_not]
    exact ⟨fun hc => absurd h (by subst hc; decide),
      fun hc => absurd h (by subst hc; decide)⟩

theorem takeWhile_all (p : Char → Bool) (xs : Str) (hx : ∀ c ∈ xs, p c = true) :
    xs.takeWhile p = xs ∧ xs.dropWhile p = [] := by
  induction xs with
  | nil => simp
  | cons a t ih =>
    have ha : p a = true := hx a (List.mem_cons_self a t)
    have ht := ih (fun c hc => hx c (List.mem_cons_of_mem a hc))
    simp [List.takeWhile_cons, List.dropWhile_cons, ha, ht.1, ht.2]

theorem pyFloat_digits_dot (ip fp : Str) (hip : ∀ c ∈ ip, c.isDigit = true)
    (hfp : ∀ c ∈ fp, c.isDigit = true) (hne : ip ≠ []) :
    pyFloat (ip ++ '.' :: fp) =
      some ((digitsVal ip : ℚ) + (digitsVal fp : ℚ) / 10 ^ fp.length) := by
  obtain ⟨a, t, rfl⟩ : ∃ a t, ip = a :: t := by
    cases ip with
    | nil => exact absurd rfl hne
    | cons a t => exact ⟨a, t, rfl⟩
  have ha := isDigit_facts (hip a (List.mem_cons_self a t))
  have htake := takeWhile_append_stop Char.isDigit (a :: t) '.' fp hip (by decide)
  have hfpt := takeWhile_all Char.isDigit fp hfp
  unfold pyFloat
  rw [if_neg (by simp [List.cons_append, ha.1]),
    if_neg (by simp [List.cons_append, ha.2.1])]
  unfold pyFloatCore
  simp only [htake.1, htake.2, List.head?_cons, List.tail_cons, hfpt.1, hfpt.2]
  simp

theorem intercalate_sp_facts (parts : List Str) :
    (∀ ch ∈ List.intercalate [' '] parts, ch = ' ' ∨ ch ∈ parts.join) ∧
    (List.intercalate [' '] parts).filter notSep = parts.join.filter notSep := by
  induction parts with
  | nil => simp [List.intercalate]
  | cons p rest ih =>
    cases rest with
    | nil => simp [List.intercalate]; exact fun ch hch => Or.inr hch
    | cons q t =>
      have hstep : List.intercalate [' '] (p :: q :: t) =
          p ++ ' ' :: List.intercalate [' '] (q :: t) := by
        simp [List.intercalate, List.intersperse_cons_cons]
      constructor
      · intro ch hch
        rw [hstep, List.mem_append] at hch
        rcases hch with hp | hrest
        · exact Or.inr (by simp [hp])
        · rcases List.mem_cons.mp hrest with rfl | hrest2
          · exact Or.inl rfl
          · rcases ih.1 ch hrest2 with hsp | hj
            · exact Or.inl hsp
            · exact Or.inr (by simp at hj ⊢; tauto)
      · rw [hstep, List.filter_append, List.filter_cons_of_neg (by decide), ih.2]
        simp [List.filter_append]

theorem parse_french_amount_spaced (parts : List Str) (n c : Nat) (hc : c < 100)
    (hj : parts.join = natRepr n) :
    parse_french_amount (frenchSpaced parts c) = some ((n : ℚ) + (c : ℚ) / 100) := by
  have hdig : ∀ ch ∈ parts.join, ch.isDigit = true := by
    rw [hj]; intro ch hch
    obtain ⟨d, hd, rfl⟩ := natRepr_mem_digit hch
    exact (digitChar_facts hd).1
  have hcents : ∀ ch ∈ cents2 c, ch.isDigit = true := by
    intro ch hch
    unfold cents2 at hch
    rcases List.mem_cons.mp hch with rfl | hch2
    · exact (digitChar_facts (show c / 10 < 10 by omega)).1
    · rcases List.mem_cons.mp hch2 with rfl | hch3
      · exact (digitChar_facts (show c % 10 < 10 by omega)).1
      · simp at hch3
  have hreprdig : ∀ ch ∈ natRepr n, ch.isDigit = true := by
    intro ch hch
    obtain ⟨d, hd, rfl⟩ := natRepr_mem_digit hch
    exact (digitChar_facts hd).1
  have hfilters : (frenchSpaced parts c).filter notSep =
      natRepr n ++ ',' :: cents2 c := by
    unfold frenchSpaced
    rw [List.filter_append, (intercalate_sp_facts parts).2,
      List.filter_eq_self.mpr (fun a ha => (isDigit_facts (hdig a ha)).2.2.2.2.2), hj]
    congr 1
    rw [List.filter_cons_of_pos (by decide)]
    congr 1
    exact List.filter_eq_self.mpr (fun a ha => (isDigit_facts (hcents a ha)).2.2.2.2.2)
  have hs : ∀ ch ∈ frenchSpaced parts c, isPySpace ch = true → notSep ch = false := by
    intro ch hch hsp
    unfold frenchSpaced at hch
    rcases List.mem_append.mp hch with hi | hr
    · rcases (intercalate_sp_facts parts).1 ch hi with rfl | hjn
      · decide
      · exact absurd hsp (by simp [(isDigit_facts (hdig ch hjn)).2.2.2.2.1])
    · rcases List.mem_cons.mp hr with rfl | hc2
      · exact absurd hsp (by decide)
      · exact absurd hsp (by simp [(isDigit_facts (hcents ch hc2)).2.2.2.2.1])
  have hne : frenchSpaced parts c ≠ [] := by
    unfold frenchSpaced; simp
  have hstripne : pyStrip (frenchSpaced parts c) ≠ [] := by
    intro hstrip
    have h1 := filter_pyStrip (frenchSpaced parts c) hs
    rw [hstrip, hfilters] at h1
    exact absurd h1.symm (by simp [natRepr_ne_nil n])
  unfold parse_french_amount
  rw [if_neg (by simp [hne, hstripne])]
  rw [filter_pyStrip _ hs, hfilters]
  have hmap : (natRepr n ++ ',' :: cents2 c).map (fun c => if c = ',' then '.' else c) =
      natRepr n ++ '.' :: cents2 c := by
    rw [List.map_append, List.map_cons, if_pos rfl]
    congr 1
    · rw [List.map_congr_left (fun a ha =>
        if_neg (isDigit_facts (hreprdig a ha)).2.2.2.1)]
      exact List.map_id _
    · congr 1
      rw [List.map_congr_left (fun a ha =>
        if_neg (isDigit_facts (hcents a ha)).2.2.2.1)]
      exact List.map_id _
  rw [hmap]
  show Option.map _ (pyFloat (natRepr n ++ '.' :: cents2 c)) = _
  rw [pyFloat_digits_dot _ _ hreprdig hcents (natRepr_ne_nil n)]
  rw [digitsVal_natRepr, cents2_val hc]
  have hlen : (cents2 c).length = 2 := rfl
  rw [hlen]
  simp only [Option.map]
  rw [abs_of_nonneg (by positivity)]
  norm_num

theorem is_similar_project_iff (p bq : Str) :
    is_similar_project p bq = true ↔
      ((((wordsOf (normalize_name bq)).filter (fun w => 3 < w.length)).take 3 ≠ []) ∧
       ∀ kw ∈ ((wordsOf (normalize_name bq)).filter (fun w => 3 < w.length)).take 3,
         kw <:+: normalize_name p) := by
  unfold is_similar_project
  by_cases h : ((wordsOf (normalize_name bq)).filter (fun w => 3 < w.length)).take 3 = []
  · simp [h]
  · simp [h, containsSub, List.all_eq_true]

theorem foldl_preserve {α σ : Type*} (P : σ → Prop) (step : σ → α → σ)
    (hstep : ∀ s x, P s → P (step s x)) :
    ∀ (xs : List α) (s : σ), P s → P (xs.foldl step s) := by
  intro xs
  induction xs with
  | nil => exact fun s hs => hs
  | cons x t ih => exact fun s hs => ih _ (hstep s x hs)

theorem emitPairs_pos (annee : Nat) (page_info : PageInfo) (pdf_name : Str)
    (sens nature_code nature_libelle : Str) (pairs : List (Str × Str)) :
    ∀ l ∈ emitPairs annee page_info pdf_name sens nature_code nature_libelle pairs,
      0 < l.montant := by
  intro l hl
  simp only [emitPairs, List.mem_filterMap] at hl
  obtain ⟨fa, _, heq⟩ := hl
  split at heq
  · split at heq
    · rename_i val _ hpos
      rw [Option.some.injEq] at heq
      subst heq
      simpa [mkVoteLine] using hpos
    · cases heq
  · cases heq

theorem pageStep_pos (ro : RegexOracle) (htc : Bool) (ne_ : Nat)
    (func_codes : List Str) (annee : Nat) (page_info : PageInfo) (pdf_name : Str)
    (st : Option Str × List BudgetVoteLine) (line : Str)
    (h : ∀ l ∈ st.2, 0 < l.montant) :
    ∀ l ∈ (pageStep ro htc ne_ func_codes annee page_info pdf_name st line).2,
      0 < l.montant := by
  intro l hl
  simp only [pageStep] at hl
  split at hl
  · exact h l hl
  · split at hl
    · exact h l hl
    · split at hl
      · rename_i nature_code sens _ _
        rcases List.mem_append.mp hl with h1 | h2
        · exact h l h1
        · exact emitPairs_pos _ _ _ _ _ _ _ l h2
      · exact h l hl

theorem nonVentStep_pos (ro : RegexOracle) (page_info : NonVentPageInfo)
    (annee : Nat) (pdf_name : Str) (st : Option Str × List BudgetVoteLine)
    (line : Str) (h : ∀ l ∈ st.2, 0 < l.montant) :
    ∀ l ∈ (nonVentStep ro page_info annee pdf_name st line).2, 0 < l.montant := by
  intro l hl
  simp only [nonVentStep] at hl
  split at hl
  · exact h l hl
  · split at hl
    · exact h l hl
    · split at hl
      · exact h l hl
      · split at hl
        · exact h l hl
        · split at hl
          · exact h l hl
          · split at hl
            · exact h l hl
            · split at hl
              · exact h l hl
              · rename_i val hvpos
                rcases List.mem_append.mp hl with h1 | h2
                · exact h l h1
                · simp at h2
                  subst h2
                  simpa using lt_of_not_le (fun hle => hvpos (by simpa using hle))

theorem extract_address_llm_some {resp : Option LlmJson} {ext : Str × ℚ}
    (h : extract_address_llm resp = some ext) :
    ∃ r a, resp = some r ∧ r.adresse = some a ∧ a ≠ [] ∧
      MIN_CONFIDENCE ≤ r.confidence := by
  cases resp with
  | none => exact absurd h (by simp [extract_address_llm])
  | some r =>
    simp only [extract_address_llm] at h
    rcases ha : r.adresse with _ | a
    · rw [ha] at h; cases h
    · rw [ha] at h
      dsimp only at h
      by_cases hc : a ≠ [] ∧ MIN_CONFIDENCE ≤ r.confidence
      · exact ⟨r, a, rfl, ha, hc.1, hc.2⟩
      · rw [if_neg hc] at h; cases h

theorem validate_address_ban_some {resp : Option BanResp} {v : ApiResult}
    (h : validate_address_ban resp = some v) :
    ∃ b f, resp = some b ∧ b.status < 400 ∧ b.feature = some f ∧
      startsWithLit f.postcode "75" = true ∧ mkRat 4 10 < f.score := by
  cases resp with
  | none => exact absurd h (by simp [validate_address_ban])
  | some b =>
    simp only [validate_address_ban] at h
    by_cases hst : 400 ≤ b.status
    · rw [if_pos hst] at h; cases h
    · rw [if_neg hst] at h
      rcases hfeat : b.feature with _ | f
      · rw [hfeat] at h; cases h
      · rw [hfeat] at h
        dsimp only at h
        by_cases hc : startsWithLit f.postcode "75" = true ∧ f.score > mkRat 4 10
        · exact ⟨b, f, rfl, by omega, hfeat, hc.1, hc.2⟩
        · rw [if_neg hc] at h; cases h

/-! ## Claim theorems -/

/-- C1 counterexample: the code's duplicate test selects the FIRST three
significant words of the secondary name, not the top-3 LONGEST as the
claim states.  For the secondary name `"aaaa bbbbb cccccc dddddddd"` and
the primary name `"aaaa bbbbb cccccc"`, the code declares the project
already present while the claimed top-3-longest rule (which selects
`dddddddd`, `cccccc`, `bbbbb`) does not. -/
theorem C1_counterexample :
    already_in_pdf [str "aaaa bbbbb cccccc"] (str "aaaa bbbbb cccccc dddddddd")
        = true ∧
    specTopThreeSimilar (str "aaaa bbbbb cccccc") (str "aaaa bbbbb cccccc dddddddd")
        = false := by
  decide

/-- C1 (amended): the merge-engine duplicate test normalizes both names
(lowercase, strip accents, strip non-alphanumerics), selects the FIRST
three significant words (length > 3, in order of appearance) of the
normalized secondary name, and declares the project already present in
the primary source iff that selection is nonempty and every selected word
appears as a substring of some normalized primary-source name. -/
theorem C1_keyword_dedup_rule (pdf_names : List Str) (bq_name : Str) :
    already_in_pdf pdf_names bq_name = true ↔
      ∃ p ∈ pdf_names,
        ((((wordsOf (normalize_name bq_name)).filter
            (fun w => 3 < w.length)).take 3 ≠ []) ∧
         ∀ kw ∈ ((wordsOf (normalize_name bq_name)).filter
            (fun w => 3 < w.length)).take 3,
           kw <:+: normalize_name p) := by
  unfold already_in_pdf
  simp only [List.any_eq_true]
  exact exists_congr fun p => and_congr_right fun _ => is_similar_project_iff p bq_name

/-- C2 counterexample: an iconic-location name is NOT always included —
the minimum-amount check runs first, so `"tour eiffel"` with amount 1000
(< 500000) is rejected with reason `MONTANT_TROP_FAIBLE`, refuting
"always includes it ... regardless of any other condition". -/
theorem C2_counterexample :
    is_iconic_location (str "tour eiffel") = true ∧
    (should_add_from_bq (str "tour eiffel") none 1000).1 = false ∧
    (should_add_from_bq (str "tour eiffel") none 1000).2
        = str "MONTANT_TROP_FAIBLE" := by
  decide

/-- C2 (amended): a secondary-source project not already present in the
primary source is included iff its amount is at least the fixed minimum
threshold (500000) AND its name does not match a generic-subsidy
exclusion pattern (iconic names never do) AND (its name matches the
iconic-location registry OR it has a truthy (known, nonzero)
arrondissement); in particular iconic-location matches below the amount
threshold are dropped. -/
theorem C2_inclusion_policy (name : Str) (arr : Option Int) (montant : ℚ) :
    (should_add_from_bq name arr montant).1 = true ↔
      (MIN_AMOUNT_BQ ≤ montant ∧ is_excluded name = false ∧
        (is_iconic_location name = true ∨ truthyOptInt arr = true)) := by
  unfold should_add_from_bq
  split_ifs with h1 h2 h3 h4 <;> simp_all [not_lt, le_of_not_lt]

/-- C3: the geocoding cascade attempts tiers in fixed priority order and
the first success wins.  (i) If the known-place registry matches (with a
truthy latitude), the recorded confidence is exactly 1.0, the coordinates
and source come from the registry entry, and no API tier is attempted
(the API call log is empty) — for every address extractor and API oracle,
so no lower tier can overwrite the tier-1 result.  (ii) If tier 1 fails
and the tier-2 address lookup succeeds with score > 0.4, the recorded
fields come from tier 2 and exactly that one API call was made (tier 3 is
never attempted).  (iii) The LLM-assisted pass's candidate list holds
exactly the projects whose geocode source is centroid-fallback or none. -/
theorem C3_cascade_priority :
    (∀ (extractArr : Str → Option Int) (extractAddr : Str → Option (Str × Str))
       (extractPlace : Str → Option Str) (api : Str → Option Int → Option ApiResult)
       (lieux : List (Str × LieuData)) (p : GeoProjet) (pl : Str × LieuData),
       match_lieu_connu p.nom_projet lieux = some pl →
       truthyOptQ pl.2.lat = true →
       (geocode_project extractArr extractAddr extractPlace api lieux p).proj.geo_score
           = some 1 ∧
       (geocode_project extractArr extractAddr extractPlace api lieux p).proj.geo_source
           = some (str "lieu_connu") ∧
       (geocode_project extractArr extractAddr extractPlace api lieux p).proj.lat
           = pl.2.lat ∧
       (geocode_project extractArr extractAddr extractPlace api lieux p).proj.lon
           = pl.2.lon ∧
       (geocode_project extractArr extractAddr extractPlace api lieux p).tag
           = str "lieu_connu" ∧
       (geocode_project extractArr extractAddr extractPlace api lieux p).apiCalls
           = []) ∧
    (∀ (extractArr : Str → Option Int) (extractAddr : Str → Option (Str × Str))
       (extractPlace : Str → Option Str) (api : Str → Option Int → Option ApiResult)
       (lieux : List (Str × LieuData)) (p : GeoProjet) (a : Int) (ad ty : Str)
       (r : ApiResult),
       p.arrondissement = some a → 0 < a →
       match_lieu_connu p.nom_projet lieux = none →
       extractAddr p.nom_projet = some (ad, ty) →
       api ad (some a) = some r → mkRat 4 10 < r.score →
       (geocode_project extractArr extractAddr extractPlace api lieux p).proj.lat
           = some r.lat ∧
       (geocode_project extractArr extractAddr extractPlace api lieux p).proj.lon
           = some r.lon ∧
       (geocode_project extractArr extractAddr extractPlace api lieux p).proj.geo_source
           = some (str "api_" ++ ty) ∧
       (geocode_project extractArr extractAddr extractPlace api lieux p).proj.geo_score
           = some r.score ∧
       (geocode_project extractArr extractAddr extractPlace api lieux p).tag
           = str "api_" ++ ty ∧
       (geocode_project extractArr extractAddr extractPlace api lieux p).apiCalls
           = [(ad, some a)]) ∧
    (∀ (projects : List GeoProjet) (p : GeoProjet),
       p ∈ llmCandidates projects ↔
         p ∈ projects ∧ (p.geo_source = some (str "centroid") ∨
           p.geo_source = some (str "none"))) := by
  refine ⟨?_, ?_, ?_⟩
  · intro eA eAd eP api lieux p pl hlieu hlat
    simp only [geocode_project, hlieu, hlat, if_true]
    split_ifs <;> simp
  · intro eA eAd eP api lieux p a ad ty r hparr hapos hlieu hext hapi hscore
    have harr : (if p.arrondissement.getD 0 ≠ 0 ∧ 0 < p.arrondissement.getD 0
        then some (p.arrondissement.getD 0) else eA p.nom_projet) = some a := by
      rw [hparr]
      simp only [Option.getD_some]
      rw [if_pos ⟨by omega, hapos⟩]
    simp only [geocode_project, hlieu, harr]
    simp only [geocode_tier2, hext, hapi]
    rw [if_pos (by exact hscore)]
    simp
  · intro projects p
    simp [llmCandidates, List.mem_filter]

/-- C4 counterexample: not every external HTTP call that answers 429 is
retried twice — the Gemini batch call is (3 requests on persistent 429),
but the BAN geocoder performs NO retry on 429: `raise_for_status` lands
in the exception handler and the lookup fails after a single request. -/
theorem C4_counterexample :
    call_gemini_attempts (fun _ => 429) = (3, [30, 60], 429) ∧
    geocode_api (fun _ => ⟨429, none⟩) [] (str "10 rue de Rivoli") none =
      (none, [], 1) :=
  ⟨rfl, rfl⟩

/-- C4 (amended): the Gemini batch call answers a persistent 429 with
exactly two retry attempts at increasing fixed delays (30s then 60s), then
gives up and records the batch as failed (an empty result, no exception);
it never sends more than three requests.  The BAN geocoder performs no
retry on 429: the lookup returns `none` for that item after one request,
without aborting the run. -/
theorem C4_retry_policy :
    (∀ (oracle : Nat → Nat) (parsed : List (Str × Option Int)),
       oracle 0 = 429 → oracle 1 = 429 →
       call_gemini_attempts oracle = (3, [30, 60], oracle 2) ∧
       (oracle 2 ≠ 200 → call_gemini_batch oracle parsed = ([], 3))) ∧
    (∀ oracle : Nat → Nat, (call_gemini_attempts oracle).1 ≤ 3) ∧
    (∀ (ban : Nat → BanResp) (cache : List ((Str × Int) × Option ApiResult))
       (q : Str) (arr : Option Int),
       (ban 0).status = 429 →
       cache.find? (fun e => e.1 = banCacheKey q arr) = none →
       geocode_api ban cache q arr = (none, cache, 1)) := by
  refine ⟨?_, ?_, ?_⟩
  · intro oracle parsed h0 h1
    constructor
    · simp [call_gemini_attempts, h0, h1]
    · intro h2
      simp [call_gemini_batch, call_gemini_attempts, h0, h1, h2]
  · intro oracle
    simp only [call_gemini_attempts]
    split
    · split <;> simp
    · simp
  · intro ban cache q arr h429 hmiss
    simp only [geocode_api]
    rw [hmiss]
    show (if 400 ≤ (ban 0).status then _ else _) = _
    rw [if_pos (by rw [h429]; norm_num)]

/-- C5: a page sequence `[labeled(A), continuation, continuation,
labeled(B)]` is classified with contexts `[A, A, A, B]` (each continuation
inherits section, chapter code and chapter label from the nearest
preceding labeled page), and in the extraction loop the running
flow-direction state is carried across the continuation pages (each
receives the previous page's outgoing sens) and reset to `none` exactly at
the transition into the new labeled page, never mid-continuation. -/
theorem C5_continuation_inheritance (A B : LabelCtx) (tA t1 t2 tB : Str)
    (classify : Str → Option LabelCtx) (contTest : Str → Bool)
    (hA : classify tA = some A) (h1 : classify t1 = none)
    (h2 : classify t2 = none) (hB : classify tB = some B)
    (hc1 : contTest t1 = true) (hc2 : contTest t2 = true) :
    find_all_croisee_pages classify contTest [tA, t1, t2, tB] =
      [labeledPage 0 A, contPage 1 A, contPage 2 A, labeledPage 3 B] ∧
    (∀ parse : PageInfo → Option Str → List BudgetVoteLine × Option Str,
      croiseeTrace parse
        [labeledPage 0 A, contPage 1 A, contPage 2 A, labeledPage 3 B] none =
        [(labeledPage 0 A, none, (parse (labeledPage 0 A) none).1,
            (parse (labeledPage 0 A) none).2),
         (contPage 1 A, (parse (labeledPage 0 A) none).2,
            (parse (contPage 1 A) (parse (labeledPage 0 A) none).2).1,
            (parse (contPage 1 A) (parse (labeledPage 0 A) none).2).2),
         (contPage 2 A,
            (parse (contPage 1 A) (parse (labeledPage 0 A) none).2).2,
            (parse (contPage 2 A)
              (parse (contPage 1 A) (parse (labeledPage 0 A) none).2).2).1,
            (parse (contPage 2 A)
              (parse (contPage 1 A) (parse (labeledPage 0 A) none).2).2).2),
         (labeledPage 3 B, none, (parse (labeledPage 3 B) none).1,
            (parse (labeledPage 3 B) none).2)]) := by
  constructor
  · have hr : List.range ([tA, t1, t2, tB] : List Str).length = [0, 1, 2, 3] := rfl
    simp only [find_all_croisee_pages, hr, List.filterMap_cons, List.filterMap_nil,
      List.getD_cons_zero, List.getD_cons_succ, hA, h1, h2, hB, Option.map_some]
    simp [nearestLabeled, hA, h1, h2, hB, hc1, hc2, List.range_succ]
  · intro parse
    simp [croiseeTrace, labeledPage, contPage]

/-- C5 witness: at the concrete fixtures (`classifyW`, `contTestW`,
page texts `PA`, `C1`, `C2`, `PB`), the classifier yields exactly
`[labeled(ctxA), cont(ctxA), cont(ctxA), labeled(ctxB)]`. -/
theorem C5_witness :
    find_all_croisee_pages classifyW contTestW
        [str "PA", str "C1", str "C2", str "PB"] =
      [labeledPage 0 ctxA, contPage 1 ctxA, contPage 2 ctxA, labeledPage 3 ctxB] :=
  (C5_continuation_inheritance ctxA ctxB (str "PA") (str "C1") (str "C2")
    (str "PB") classifyW contTestW (by decide) (by decide) (by decide) (by decide)
    (by decide) (by decide)).1

/-- C6: an LLM-extracted address is written onto a project only when both
floors clear — the model's self-reported confidence is at least 0.85 (with
a truthy address) and the BAN re-validation returns a Paris (`75…`) postal
code with score above 0.4; if either check fails the project is returned
unchanged, and on success exactly the geocode fields are rewritten with
`geo_score = min(confidence, ban score)` and `geo_source = llm_ban`. -/
theorem C6_llm_double_validation (p : GeoProjet) (llmResp : Option LlmJson)
    (banResp : Option BanResp) :
    (llmProcessCandidate p llmResp banResp = p ∨
      ((∃ r, llmResp = some r ∧ ∃ a, r.adresse = some a ∧ a ≠ [] ∧
          MIN_CONFIDENCE ≤ r.confidence) ∧
       (∃ b f, banResp = some b ∧ b.status < 400 ∧ b.feature = some f ∧
          startsWithLit f.postcode "75" = true ∧ mkRat 4 10 < f.score))) ∧
    ((extract_address_llm llmResp = none ∨ validate_address_ban banResp = none) →
      llmProcessCandidate p llmResp banResp = p) ∧
    (∀ ext v, extract_address_llm llmResp = some ext →
      validate_address_ban banResp = some v →
      llmProcessCandidate p llmResp banResp =
        { p with
          lat := some v.lat
          lon := some v.lon
          geo_source := some (str "llm_ban")
          geo_score := some (min ext.2 v.score)
          geo_label := some v.label }) := by
  refine ⟨?_, ?_, ?_⟩
  · rcases hext : extract_address_llm llmResp with _ | ext
    · left; simp [llmProcessCandidate, hext]
    · rcases hval : validate_address_ban banResp with _ | v
      · left; simp [llmProcessCandidate, hext, hval]
      · right
        obtain ⟨r, a, hr, har, hane, hconf⟩ := extract_address_llm_some hext
        obtain ⟨b, f, hb, hbs, hbf, hbp, hbsc⟩ := validate_address_ban_some hval
        exact ⟨⟨r, hr, a, har, hane, hconf⟩, ⟨b, f, hb, hbs, hbf, hbp, hbsc⟩⟩
  · intro h
    rcases h with h | h
    · simp [llmProcessCandidate, h]
    · simp only [llmProcessCandidate, h]
      split <;> simp
  · intro ext v hext hval
    simp [llmProcessCandidate, hext, hval]

/-- C7: the leaf filter of the function-code extraction removes exactly
the codes that are a strict prefix of another code of the same set,
preserves first-appearance order (the result is a sublist of the input),
and on the header codes `{"02", "020", "021"}` returns exactly
`{"020", "021"}`. -/
theorem C7_leaf_filter (seen : List Str) :
    (∀ code, code ∈ leaf_codes seen ↔
      (code ∈ seen ∧ ¬∃ other ∈ seen, code <+: other ∧ other ≠ code)) ∧
    List.Sublist (leaf_codes seen) seen ∧
    leaf_codes [str "02", str "020", str "021"] = [str "020", str "021"] := by
  refine ⟨?_, List.filter_sublist _, by decide⟩
  intro code
  simp [leaf_codes, List.mem_filter]

/-- C8: the French amount parser is total (it returns an `Option` and
never raises): any amount written with blank thousands separators and a
comma before two decimal digits parses to its numeric value (in
particular `"1 234 567,89" ↦ 1234567.89`), and the malformed inputs `""`,
`"abc"` and `"12,34,56"` all yield `none`. -/
theorem C8_parse_french_amount (parts : List Str) (n c : Nat) (hc : c < 100)
    (hj : parts.join = natRepr n) :
    parse_french_amount (frenchSpaced parts c) = some ((n : ℚ) + (c : ℚ) / 100) ∧
    parse_french_amount (str "1 234 567,89") = some ((1234567.89 : ℚ)) ∧
    parse_french_amount [] = none ∧
    parse_french_amount (str "abc") = none ∧
    parse_french_amount (str "12,34,56") = none := by
  refine ⟨parse_french_amount_spaced parts n c hc hj, ?_, by decide, by decide,
    by decide⟩
  have h1 : str "1 234 567,89" = frenchSpaced [str "1", str "234", str "567"] 89 := by
    decide
  rw [h1, parse_french_amount_spaced [str "1", str "234", str "567"] 1234567 89
    (by norm_num) (by simp [natRepr, digitChar, str])]
  norm_num

/-- C8 witness: the general statement applied at
`parts = ["1", "234", "567"]`, `n = 1234567`, `c = 89`. -/
theorem C8_witness :
    parse_french_amount (frenchSpaced [str "1", str "234", str "567"] 89) =
      some ((1234567 : ℚ) + (89 : ℚ) / 100) :=
  (C8_parse_french_amount [str "1", str "234", str "567"] 1234567 89 (by decide)
    (by simp [natRepr, digitChar, str])).1

/-- C9: every `BudgetVoteLine` emitted by the extraction pass has a
strictly positive amount — on every alignment branch of the ventilated
parser and in the non-ventilated parser, for every amount tokenizer, page
text and page context; zero, negative or unparseable cells never produce
a record. -/
theorem C9_positive_amounts (ro : RegexOracle) (annee : Nat) (pdf_name : Str) :
    (∀ (seenCodes : Str → List Str) (hasTotalText : Str → Bool) (page_text : Str)
      (page_info : PageInfo) (prev_sens : Option Str),
      ∀ l ∈ (parse_page_data ro seenCodes hasTotalText page_text page_info annee
        pdf_name prev_sens).1, 0 < l.montant) ∧
    (∀ (page_text : Str) (page_info : NonVentPageInfo),
      ∀ l ∈ parse_non_ventilated_page ro page_text page_info annee pdf_name,
        0 < l.montant) := by
  constructor
  · intro seenCodes hasTotalText page_text page_info prev_sens l hl
    simp only [parse_page_data] at hl
    split at hl
    · simp at hl
    · split at hl
      · simp at hl
      · split at hl <;>
          exact foldl_preserve (fun s => ∀ x ∈ s.2, 0 < x.montant) _
            (fun s x hs => pageStep_pos _ _ _ _ _ _ _ s x hs)
            (splitNl page_text) _ (by simp) l hl
  · intro page_text page_info l hl
    simp only [parse_non_ventilated_page] at hl
    split at hl
    · simp at hl
    · exact foldl_preserve (fun s => ∀ x ∈ s.2, 0 < x.montant) _
        (fun s x hs => nonVentStep_pos _ _ _ _ s x hs)
        (splitNl page_text) _ (by simp) l hl

/-- C10: the merge preserves the primary source — every primary (PDF)
record appears in the merged output with all fields unchanged except the
provenance, which is set to `PDF`; the merged set is exactly the primary
records followed by the accepted secondary additions, and the merged
total amount equals the primary total plus the added total. -/
theorem C10_merge_preserves_primary (pdf_data : List Projet)
    (bq_aggregated : List (Str × BqInfo)) :
    (∀ p ∈ pdf_data,
      ∃ q ∈ merge_core pdf_data bq_aggregated,
        q.source = str "PDF" ∧ q.nom_projet = p.nom_projet ∧
        q.montant = p.montant ∧ q.arrondissement = p.arrondissement ∧
        q.reason = p.reason ∧ q.thematique = p.thematique ∧
        q.type_ap = p.type_ap ∧ q.confidence = p.confidence ∧
        q.extra = p.extra) ∧
    merge_core pdf_data bq_aggregated =
      (pdf_data.map (fun p => { p with source := str "PDF" })) ++
        added_from_bq pdf_data bq_aggregated ∧
    (merge_core pdf_data bq_aggregated).length =
      pdf_data.length + (added_from_bq pdf_data bq_aggregated).length ∧
    montantTotal (merge_core pdf_data bq_aggregated) =
      montantTotal pdf_data + montantTotal (added_from_bq pdf_data bq_aggregated) := by
  refine ⟨?_, rfl, by simp [merge_core], ?_⟩
  · intro p hp
    refine ⟨{p with source := str "PDF"},
      List.mem_append_left _ (List.mem_map_of_mem _ hp),
      rfl, rfl, rfl, rfl, rfl, rfl, rfl, rfl, rfl⟩
  · unfold montantTotal merge_core
    simp only [List.map_append, List.sum_append, List.map_map]
    congr 1

end OpenData
